import Mathlib

/-!
Permission flags, base permissions and account roles.

A shallow embedding of `permission/types/permissions.go`.

* `PermFlag` is Go's `uint64`, embedded as a natural number; the bitwise
  complement `^ty` is taken within 64 bits (`compl64`).
* Go strings are byte sequences (`GoString`).
* A method with a pointer receiver is embedded in state-passing form: it
  returns the receiver as it is after the call, next to the values the Go
  method returns.
* A Go `error` result is an `Option PermError`, `none` standing for `nil`.
-/

namespace Permission

/-! ## Data model -/

/-- Go's `type PermFlag uint64`; a well-formed flag is below `2 ^ 64`. -/
abbrev PermFlag := Nat

/-- A Go string: an immutable sequence of bytes. -/
abbrev GoString := List UInt8

/-- The bytes of an ASCII string literal. -/
def str (s : String) : GoString := s.toList.map (fun c => UInt8.ofNat c.toNat)

/-- The bitwise complement `^x` of a `uint64`. -/
def compl64 (x : PermFlag) : PermFlag := (2 ^ 64 - 1) ^^^ (x % 2 ^ 64)

def Root : PermFlag := 1 <<< 0
def Send : PermFlag := 1 <<< 1
def Call : PermFlag := 1 <<< 2
def CreateContract : PermFlag := 1 <<< 3
def CreateAccount : PermFlag := 1 <<< 4
def Bond : PermFlag := 1 <<< 5
def Name : PermFlag := 1 <<< 6
def NumBasePermissions : Nat := 7

def TopBasePermFlag : PermFlag := 1 <<< (NumBasePermissions - 1)
def AllBasePermFlags : PermFlag := TopBasePermFlag ||| (TopBasePermFlag - 1)

/-- The constant `AllPermFlags`; `AllSNativePermFlags` is declared in another
file of the package and is taken as a parameter. -/
def AllPermFlags (AllSNativePermFlags : PermFlag) : PermFlag :=
  AllBasePermFlags ||| AllSNativePermFlags

def DefaultBasePermFlags : PermFlag :=
  Send ||| Call ||| CreateContract ||| CreateAccount ||| Bond ||| Name

/-- The two error values of the package that `permissions.go` builds; each
carries the offending flag. -/
inductive PermError where
  | ErrInvalidPermission (ty : PermFlag)
  | ErrValueNotSet (ty : PermFlag)
  deriving DecidableEq, Repr

/-- The errors of `PermFlagToString` and `PermStringToFlag`, built by
`fmt.Errorf` from the unknown input. -/
inductive NameError where
  | UnknownPermissionFlag (pf : PermFlag)
  | UnknownPermission (perm : GoString)
  deriving DecidableEq, Repr

/-- Base chain permissions struct. -/
structure BasePermissions where
  /-- Bit array with "has"/"doesn't have" for each permission. -/
  Perms : PermFlag
  /-- Bit array with "set"/"not set" for each permission. -/
  SetBit : PermFlag
  deriving DecidableEq, Repr

structure AccountPermissions where
  Base : BasePermissions
  Roles : List GoString
  deriving DecidableEq, Repr

def ZeroBasePermissions : BasePermissions := ⟨0, 0⟩

def ZeroAccountPermissions : AccountPermissions := ⟨ZeroBasePermissions, []⟩

def DefaultAccountPermissions (AllSNativePermFlags : PermFlag) : AccountPermissions :=
  ⟨⟨DefaultBasePermFlags, AllPermFlags AllSNativePermFlags⟩, []⟩

/-! ## BasePermissions -/

/-- The method `(p *BasePermissions) Get`: the receiver after the call, the
boolean and the error. -/
def BasePermissions.Get (p : BasePermissions) (ty : PermFlag) :
    BasePermissions × Bool × Option PermError :=
  if ty = 0 then
    (p, false, some (.ErrInvalidPermission ty))
  else if p.SetBit &&& ty = 0 then
    (p, false, some (.ErrValueNotSet ty))
  else
    (p, decide (p.Perms &&& ty > 0), none)

/-- The method `(p *BasePermissions) Set`: the receiver after the call and the
error. -/
def BasePermissions.Set (p : BasePermissions) (ty : PermFlag) (value : Bool) :
    BasePermissions × Option PermError :=
  if ty = 0 then
    (p, some (.ErrInvalidPermission ty))
  else
    let p1 : BasePermissions := { p with SetBit := p.SetBit ||| ty }
    let p2 : BasePermissions :=
      if value then { p1 with Perms := p1.Perms ||| ty }
      else { p1 with Perms := p1.Perms &&& compl64 ty }
    (p2, none)

/-- The method `(p *BasePermissions) Unset`: the receiver after the call and
the error. -/
def BasePermissions.Unset (p : BasePermissions) (ty : PermFlag) :
    BasePermissions × Option PermError :=
  if ty = 0 then
    (p, some (.ErrInvalidPermission ty))
  else
    ({ p with SetBit := p.SetBit &&& compl64 ty }, none)

/-- The method `(p *BasePermissions) IsSet`: the receiver after the call and
the boolean. -/
def BasePermissions.IsSet (p : BasePermissions) (ty : PermFlag) :
    BasePermissions × Bool :=
  if ty = 0 then
    (p, false)
  else
    (p, decide (p.SetBit &&& ty > 0))

/-! ## AccountPermissions -/

/-- Modelled from the spec: `LeftPadBytes` of the package `common`, which is not
among the sources. The spec has role identifiers "normalized to a fixed-width
32-byte representation by left-padding with zero bytes" and leaves open what
happens to a slice longer than the width; such a slice is returned as it is. -/
def LeftPadBytes (slice : List UInt8) (l : Nat) : List UInt8 :=
  if l < slice.length then slice
  else List.replicate (l - slice.length) 0 ++ slice

/-- The loop over `aP.Roles` shared by `HasRole` and `AddRole`, which returns
from its body at the first `r == role`: whether it does so. -/
def rangeFinds (role : GoString) : List GoString → Bool
  | [] => false
  | r :: rest => if r = role then true else rangeFinds role rest

/-- The method `(aP *AccountPermissions) HasRole`: the receiver after the call
and the boolean. -/
def AccountPermissions.HasRole (aP : AccountPermissions) (role : GoString) :
    AccountPermissions × Bool :=
  let role := LeftPadBytes role 32
  if rangeFinds role aP.Roles then (aP, true) else (aP, false)

/-- The method `(aP *AccountPermissions) AddRole`: the receiver after the call
and the boolean. -/
def AccountPermissions.AddRole (aP : AccountPermissions) (role : GoString) :
    AccountPermissions × Bool :=
  let role := LeftPadBytes role 32
  if rangeFinds role aP.Roles then (aP, false)
  else ({ aP with Roles := aP.Roles ++ [role] }, true)

/-- The loop of `RmRole` from index `i` on, `rest` being `roles[i:]`: the new
role slice when the loop body returns, `none` when the loop runs out. -/
def rmRoleLoop (roles : List GoString) (role : GoString) :
    Nat → List GoString → Option (List GoString)
  | _, [] => none
  | i, r :: rest =>
    if r = role then
      let post : List GoString := if roles.length > i + 1 then roles.drop (i + 1) else []
      some (roles.take i ++ post)
    else rmRoleLoop roles role (i + 1) rest

/-- The method `(aP *AccountPermissions) RmRole`: the receiver after the call
and the boolean. -/
def AccountPermissions.RmRole (aP : AccountPermissions) (role : GoString) :
    AccountPermissions × Bool :=
  let role := LeftPadBytes role 32
  match rmRoleLoop aP.Roles role 0 aP.Roles with
  | some roles => ({ aP with Roles := roles }, true)
  | none => (aP, false)

/-! ## The name table -/

/-- The function `PermFlagToString`, with its named results `(perm, err)`. -/
def PermFlagToString (pf : PermFlag) : GoString × Option NameError :=
  if pf = Root then (str "root", none)
  else if pf = Send then (str "send", none)
  else if pf = Call then (str "call", none)
  else if pf = CreateContract then (str "create_contract", none)
  else if pf = CreateAccount then (str "create_account", none)
  else if pf = Bond then (str "bond", none)
  else if pf = Name then (str "name", none)
  else ([], some (.UnknownPermissionFlag pf))

/-- The function `PermStringToFlag`, with its named results `(pf, err)`. -/
def PermStringToFlag (perm : GoString) : PermFlag × Option NameError :=
  if perm = str "root" then (Root, none)
  else if perm = str "send" then (Send, none)
  else if perm = str "call" then (Call, none)
  else if perm = str "create_contract" then (CreateContract, none)
  else if perm = str "create_account" then (CreateAccount, none)
  else if perm = str "bond" then (Bond, none)
  else if perm = str "name" then (Name, none)
  else (0, some (.UnknownPermission perm))

/-- The seven base flags, in the order of their declaration. -/
def baseFlags : List PermFlag :=
  [Root, Send, Call, CreateContract, CreateAccount, Bond, Name]

/-- The seven names of the table, in the order of the flags. -/
def baseNames : List GoString :=
  [str "root", str "send", str "call", str "create_contract", str "create_account",
    str "bond", str "name"]

/-! ## Sequences of role operations -/

/-- One call on the role set of an account: `AddRole(role)` or `RmRole(role)`. -/
inductive RoleOp where
  | add (role : GoString)
  | rm (role : GoString)
  deriving DecidableEq, Repr

/-- The role a call is made with. -/
def RoleOp.role : RoleOp → GoString
  | .add r => r
  | .rm r => r

/-- The account permissions after one call. -/
def RoleOp.run (aP : AccountPermissions) : RoleOp → AccountPermissions
  | .add r => (aP.AddRole r).1
  | .rm r => (aP.RmRole r).1

/-- The account permissions after a series of calls, made from left to right. -/
def runRoleOps (aP : AccountPermissions) (ops : List RoleOp) : AccountPermissions :=
  ops.foldl RoleOp.run aP

/-! ## Permission resolver and native-contract dispatch -/

/-- An account address, a sequence of bytes. -/
abbrev Address := List UInt8

/-- The variable `GlobalPermissionsAddress`: the first 20 bytes of the zero
word. -/
def GlobalPermissionsAddress : Address := List.replicate 20 0

/-- Modelled from the spec: the ABI type tags of a native function (the
package `abi` is not among the sources). -/
inductive AbiType where
  | address
  | uint64
  | bool
  | string
  deriving DecidableEq, Repr

/-- Modelled from the spec: a decoded ABI argument or a handler result. -/
inductive AbiValue where
  | address (a : Address)
  | uint64 (n : Nat)
  | bool (b : Bool)
  | string (s : GoString)
  deriving DecidableEq, Repr

/-- Modelled from the spec: the error taxonomy of dispatch (section 7); the
package `errors` is not among the sources. -/
inductive DispatchError where
  | InvalidPermission (flag : PermFlag)
  | LacksPermission (account : Address) (needed : PermFlag)
  | UnknownFunction (selector : List UInt8)
  | AbiDecodeError
  | OutOfGas
  deriving DecidableEq, Repr

/-- Modelled from the spec: the state collaborator (section 6), read through
`get_permissions(address)`; the state store is not among the sources. The
global permissions are the entry at `GlobalPermissionsAddress`. -/
structure AppState where
  getPermissions : Address → AccountPermissions

/-- Modelled from the spec: `set_permission(address, flag, value)` of the state
collaborator (section 6), which sets the base flag of one account and returns
the error of `Set`, leaving the state as it was on an error. -/
def AppState.setPermission (st : AppState) (addr : Address) (flag : PermFlag)
    (value : Bool) : AppState × Option PermError :=
  match (st.getPermissions addr).Base.Set flag value with
  | (base, none) =>
    (⟨fun a => if a = addr then { st.getPermissions addr with Base := base }
      else st.getPermissions a⟩, none)
  | (_, some e) => (st, some e)

/-- Modelled from the spec: the permission resolver `resolve(state,
account_address, flag)` of section 4.3, which is not among the sources: the
account's own value if set, else the global value, else false; a zero flag
propagates as InvalidPermission. -/
def resolve (st : AppState) (account : Address) (flag : PermFlag) :
    Except DispatchError Bool :=
  match ((st.getPermissions account).Base.Get flag).2 with
  | (v, none) => .ok v
  | (_, some (.ErrInvalidPermission t)) => .error (.InvalidPermission t)
  | (_, some (.ErrValueNotSet _)) =>
    match ((st.getPermissions GlobalPermissionsAddress).Base.Get flag).2 with
    | (v, none) => .ok v
    | (_, some (.ErrInvalidPermission t)) => .error (.InvalidPermission t)
    | (_, some (.ErrValueNotSet _)) => .ok false

/-- Modelled from the spec: the external collaborators of dispatch (section 6),
none of which is among the sources: the cryptographic hash behind the
selectors and the ABI codec. -/
structure External where
  hash : GoString → List UInt8
  decode : List AbiType → List UInt8 → Option (List AbiValue)
  encode : AbiValue → List UInt8

/-- Modelled from the spec: a native function description (section 3): name,
argument types, required permission and handler, with the gas cost that step 4
of dispatch deducts. The handler works on the state overlay and may fail. -/
structure SNativeFunctionDescription where
  Name : GoString
  Args : List AbiType
  PermFlag : PermFlag
  GasCost : Nat
  F : AppState → Address → List AbiValue → Except DispatchError (AppState × AbiValue)

/-- Modelled from the spec: a native contract description (section 3). -/
structure SNativeContractDescription where
  Name : GoString
  Comment : GoString
  functions : List SNativeFunctionDescription

/-- The name of an ABI type in a signature. -/
def AbiType.name : AbiType → GoString
  | .address => str "address"
  | .uint64 => str "uint64"
  | .bool => str "bool"
  | .string => str "string"

/-- Modelled from the spec: the canonical signature `name(type,type,...)` of
a function (section 4.4). -/
def SNativeFunctionDescription.Signature (fn : SNativeFunctionDescription) : GoString :=
  fn.Name ++ str "(" ++ (str ",").intercalate (fn.Args.map AbiType.name) ++ str ")"

/-- Modelled from the spec: the selector of a function, the first 4 bytes of
the hash of its signature (section 3). -/
def SNativeFunctionDescription.ID (ext : External) (fn : SNativeFunctionDescription) :
    List UInt8 :=
  (ext.hash fn.Signature).take 4

/-- Modelled from the spec: lookup by selector within a contract (section 4.4). -/
def SNativeContractDescription.FunctionByID (ext : External)
    (contract : SNativeContractDescription) (id : List UInt8) :
    Option SNativeFunctionDescription :=
  contract.functions.find? (fun fn => decide (fn.ID ext = id))

/-- The outcome of a dispatch: the state and the gas left after it, and the
returned bytes or the error. -/
structure DispatchResult where
  state : AppState
  gas : Nat
  ret : Except DispatchError (List UInt8)

/-- Modelled from the spec: `dispatch(state, caller_address, call_data,
gas_remaining)` of section 4.5, which is not among the sources (only its test
is). The steps are those of the spec, and every failure returns the state the
dispatch started from. The permission of the caller (step 3) is resolved before
the arguments are decoded (step 2): `TestSNativeContractDescription_Dispatch`
dispatches call data whose arguments are 52 bytes, not whole words, from a
caller without permissions and requires the lacks-permission error, not a
decoding error. -/
def SNativeContractDescription.Dispatch (ext : External)
    (contract : SNativeContractDescription) (st : AppState) (caller : Address)
    (callData : List UInt8) (gasRemaining : Nat) : DispatchResult :=
  match contract.FunctionByID ext (callData.take 4) with
  | none => ⟨st, gasRemaining, .error (.UnknownFunction (callData.take 4))⟩
  | some fn =>
    match resolve st caller fn.PermFlag with
    | .error e => ⟨st, gasRemaining, .error e⟩
    | .ok false => ⟨st, gasRemaining, .error (.LacksPermission caller fn.PermFlag)⟩
    | .ok true =>
      match ext.decode fn.Args (callData.drop 4) with
      | none => ⟨st, gasRemaining, .error .AbiDecodeError⟩
      | some args =>
        if gasRemaining < fn.GasCost then ⟨st, 0, .error .OutOfGas⟩
        else
          match fn.F st caller args with
          | .error e => ⟨st, gasRemaining, .error e⟩
          | .ok (st', result) => ⟨st', gasRemaining - fn.GasCost, .ok (ext.encode result)⟩

/-- Modelled from the spec: the `addRole(address,string)` function of the
Permissions contract: it requires the add-role permission, a constant declared
outside the sources and taken as a parameter like its gas cost, and its handler
adds the role to the account at the address and returns whether it was new. -/
def addRoleFunction (AddRoleFlag : PermFlag) (gasCost : Nat) : SNativeFunctionDescription where
  Name := str "addRole"
  Args := [.address, .string]
  PermFlag := AddRoleFlag
  GasCost := gasCost
  F := fun st _ args =>
    match args with
    | [.address a, .string role] =>
      let r := (st.getPermissions a).AddRole role
      .ok (⟨fun b => if b = a then r.1 else st.getPermissions b⟩, .bool r.2)
    | _ => .error .AbiDecodeError

/-! ## The dispatch test

The collaborators and the data of `TestSNativeContractDescription_Dispatch`, to
run dispatch on the calls the test makes. -/

/-- The selectors in `compiledSigs` of the test, as a table from the signature
to its four bytes; it stands for the hash. -/
def compiledSigs (signature : GoString) : List UInt8 :=
  if signature = str "addRole(address,string)" then [0x7d, 0x72, 0xaa, 0x65]
  else if signature = str "removeRole(address,string)" then [0x1b, 0xfe, 0x03, 0x08]
  else if signature = str "hasRole(address,string)" then [0x21, 0x7f, 0xe6, 0xc6]
  else if signature = str "setBase(address,uint64,bool)" then [0xdb, 0xd4, 0xa8, 0xea]
  else if signature = str "unsetBase(address,uint64)" then [0xb7, 0xd4, 0xdc, 0x0d]
  else if signature = str "hasBase(address,uint64)" then [0x22, 0x5b, 0x65, 0x74]
  else if signature = str "setGlobal(uint64,bool)" then [0xc4, 0xbc, 0x7b, 0x70]
  else []

/-- The number a byte sequence holds, most significant byte first. -/
def bigEndian (bs : List UInt8) : Nat :=
  bs.foldl (fun acc b => acc * 256 + b.toNat) 0

/-- The 32-byte word of `data` at byte offset `off`, when it is whole. -/
def wordAt (data : List UInt8) (off : Nat) : Option (List UInt8) :=
  if off + 32 ≤ data.length then some ((data.drop off).take 32) else none

/-- Modelled from the spec: the decoding of argument `i` from `data` (section
6): a 32-byte word for a fixed-size type, the address in its last 20 bytes; for
a string the word holds the offset of a length word followed by the bytes.
Truncated input does not decode. -/
def decodeArg (data : List UInt8) (i : Nat) : AbiType → Option AbiValue
  | .address => (wordAt data (32 * i)).map (fun w => .address (w.drop 12))
  | .uint64 => (wordAt data (32 * i)).map (fun w => .uint64 (bigEndian (w.drop 24)))
  | .bool =>
    (wordAt data (32 * i)).bind (fun w =>
      if bigEndian w = 0 then some (.bool false)
      else if bigEndian w = 1 then some (.bool true)
      else none)
  | .string =>
    (wordAt data (32 * i)).bind (fun w =>
      (wordAt data (bigEndian w)).bind (fun lw =>
        if bigEndian w + 32 + bigEndian lw ≤ data.length then
          some (.string ((data.drop (bigEndian w + 32)).take (bigEndian lw)))
        else none))

/-- Modelled from the spec: the decoding of the arguments of the types `tys`,
the first of them being argument `i`. -/
def decodeArgs (data : List UInt8) : Nat → List AbiType → Option (List AbiValue)
  | _, [] => some []
  | i, t :: ts =>
    match decodeArg data i t, decodeArgs data (i + 1) ts with
    | some v, some vs => some (v :: vs)
    | _, _ => none

/-- Modelled from the spec: the encoding of a result (section 6); a boolean is
the 32-byte word 0 or 1, as the test requires of the returned value. -/
def encodeValue : AbiValue → List UInt8
  | .bool b => LeftPadBytes [if b then 1 else 0] 32
  | .address a => LeftPadBytes a 32
  | .uint64 n => LeftPadBytes ((List.range 8).reverse.map
      (fun k => UInt8.ofNat (n / 256 ^ k % 256))) 32
  | .string s => LeftPadBytes ((List.range 8).reverse.map
      (fun k => UInt8.ofNat (s.length / 256 ^ k % 256))) 32 ++ s

/-- The collaborators of the test: the selector table and the word codec. -/
def testExternal : External where
  hash := compiledSigs
  decode := fun tys data => decodeArgs data 0 tys
  encode := encodeValue

/-- The add-role flag in the test runs; the constant is declared outside the
sources, and bit 12 stands for it. -/
def testAddRoleFlag : PermFlag := 1 <<< 12

/-- The Permissions contract in the test runs, with its `addRole` function. -/
def testContract : SNativeContractDescription :=
  ⟨str "Permissions", str "", [addRoleFunction testAddRoleFlag 1]⟩

/-- The address `crypto.Address{b, b, b}` of the test: 20 bytes, the first
three `b`. -/
def testAddress (b : UInt8) : Address := [b, b, b] ++ List.replicate 17 0

/-- The state of the test before the first dispatch: caller and grantee are
accounts without permissions, and the global account has the default
permissions, in which the add-role flag is set to false. -/
def testState : AppState :=
  ⟨fun a => if a = GlobalPermissionsAddress then DefaultAccountPermissions testAddRoleFlag
    else ZeroAccountPermissions⟩

/-- The call data of the first dispatch of the test: the selector, the 20
bytes of the grantee address, not padded to a word, and the word of
`CreateAccount`. -/
def testCallData1 : List UInt8 :=
  [0x7d, 0x72, 0xaa, 0x65] ++ testAddress 2 ++ LeftPadBytes [16] 32

/-- The call data of the second dispatch of the test: the selector, the word
of the grantee address and the word of `CreateAccount`. -/
def testCallData2 : List UInt8 :=
  [0x7d, 0x72, 0xaa, 0x65] ++ LeftPadBytes (testAddress 2) 32 ++ LeftPadBytes [16] 32

/-! ## Bitwise facts about 64-bit flags -/

theorem or_and_self_flag (a f : Nat) : (a ||| f) &&& f = f := by
  apply Nat.eq_of_testBit_eq
  intro i
  simp only [Nat.testBit_and, Nat.testBit_or]
  cases a.testBit i <;> cases f.testBit i <;> rfl

theorem testBit_compl64 (f i : Nat) :
    (compl64 f).testBit i = (decide (i < 64) && !f.testBit i) := by
  unfold compl64
  rw [Nat.testBit_xor, Nat.testBit_two_pow_sub_one, Nat.testBit_mod_two_pow]
  cases decide (i < 64) <;> cases f.testBit i <;> rfl

theorem and_compl64_and_self (a f : Nat) : (a &&& compl64 f) &&& f = 0 := by
  apply Nat.eq_of_testBit_eq
  intro i
  simp only [Nat.testBit_and, testBit_compl64, Nat.zero_testBit]
  cases a.testBit i <;> cases decide (i < 64) <;> cases f.testBit i <;> rfl

theorem testBit_of_lt_two_pow_64 {a : Nat} (ha : a < 2 ^ 64) {i : Nat} (hi : ¬ i < 64) :
    a.testBit i = false := by
  apply Nat.testBit_lt_two_pow
  exact lt_of_lt_of_le ha (Nat.pow_le_pow_right (by decide) (Nat.le_of_not_lt hi))

theorem and_compl64_or_self (a f : Nat) (ha : a < 2 ^ 64) :
    (a &&& compl64 f) ||| f = a ||| f := by
  apply Nat.eq_of_testBit_eq
  intro i
  simp only [Nat.testBit_and, Nat.testBit_or, testBit_compl64]
  by_cases hi : i < 64
  · simp only [hi, decide_True]
    cases a.testBit i <;> cases f.testBit i <;> rfl
  · rw [testBit_of_lt_two_pow_64 ha hi]
    simp

theorem two_pow_and_cases (k s : Nat) : 2 ^ k &&& s = 2 ^ k ∨ 2 ^ k &&& s = 0 := by
  cases hk : s.testBit k
  · right
    apply Nat.eq_of_testBit_eq
    intro i
    rw [Nat.testBit_and, Nat.testBit_two_pow, Nat.zero_testBit]
    by_cases hi : k = i
    · subst hi; simp [hk]
    · simp [hi]
  · left
    apply Nat.eq_of_testBit_eq
    intro i
    rw [Nat.testBit_and, Nat.testBit_two_pow]
    by_cases hi : k = i
    · subst hi; simp [hk]
    · simp [hi]

theorem or_and_ne_zero (a s f : Nat) (h : a &&& f ≠ 0) : (a ||| s) &&& f ≠ 0 := by
  obtain ⟨i, hi⟩ := Nat.ne_zero_implies_bit_true h
  intro h0
  have hbit : ((a ||| s) &&& f).testBit i = true := by
    rw [Nat.testBit_and] at hi
    rw [Nat.testBit_and, Nat.testBit_or]
    revert hi
    cases a.testBit i <;> cases s.testBit i <;> cases f.testBit i <;> simp
  rw [h0, Nat.zero_testBit] at hbit
  exact Bool.false_ne_true hbit

theorem testBit_disjoint {f g : Nat} (h : f &&& g = 0) (i : Nat) :
    (f.testBit i && g.testBit i) = false := by
  rw [← Nat.testBit_and, h, Nat.zero_testBit]

theorem or_and_disjoint (a f g : Nat) (h : f &&& g = 0) : (a ||| f) &&& g = a &&& g := by
  apply Nat.eq_of_testBit_eq
  intro i
  have hi := testBit_disjoint h i
  simp only [Nat.testBit_and, Nat.testBit_or]
  revert hi
  cases a.testBit i <;> cases f.testBit i <;> cases g.testBit i <;> simp

theorem and_compl64_and_disjoint (a f g : Nat) (h : f &&& g = 0) (ha : a < 2 ^ 64) :
    (a &&& compl64 f) &&& g = a &&& g := by
  apply Nat.eq_of_testBit_eq
  intro i
  have hi := testBit_disjoint h i
  simp only [Nat.testBit_and, testBit_compl64]
  by_cases h64 : i < 64
  · simp only [h64, decide_True, Bool.true_and]
    revert hi
    cases a.testBit i <;> cases f.testBit i <;> cases g.testBit i <;> simp
  · rw [testBit_of_lt_two_pow_64 ha h64]
    simp

theorem get_of_set_bit (p : BasePermissions) (f : PermFlag) (hs : p.SetBit &&& f ≠ 0) :
    (p.Get f).2 = (decide (p.Perms &&& f > 0), none) ∧ (p.IsSet f).2 = true := by
  have hf : f ≠ 0 := by
    intro h0
    rw [h0] at hs
    exact hs (by simp)
  simp [BasePermissions.Get, BasePermissions.IsSet, hf, hs, Nat.pos_iff_ne_zero]

/-! ## Facts about the name table and the role loop -/

theorem baseFlags_two_pow {pf : PermFlag} (h : pf ∈ baseFlags) : ∃ m, m < 7 ∧ pf = 2 ^ m := by
  simp only [baseFlags, List.mem_cons, List.mem_singleton, List.not_mem_nil, or_false] at h
  rcases h with h | h | h | h | h | h | h
  · exact ⟨0, by decide, h⟩
  · exact ⟨1, by decide, h⟩
  · exact ⟨2, by decide, h⟩
  · exact ⟨3, by decide, h⟩
  · exact ⟨4, by decide, h⟩
  · exact ⟨5, by decide, h⟩
  · exact ⟨6, by decide, h⟩

theorem rangeFinds_iff (role : GoString) (roles : List GoString) :
    rangeFinds role roles = true ↔ role ∈ roles := by
  induction roles with
  | nil => simp [rangeFinds]
  | cons r rest ih =>
    by_cases h : r = role
    · simp [rangeFinds, h]
    · have h' : ¬ role = r := fun e => h e.symm
      simp [rangeFinds, h, h', ih]

theorem addRole_of_finds (aP : AccountPermissions) (role : GoString)
    (h : rangeFinds (LeftPadBytes role 32) aP.Roles = true) :
    aP.AddRole role = (aP, false) := by
  simp [AccountPermissions.AddRole, h]

theorem addRole_of_not_finds (aP : AccountPermissions) (role : GoString)
    (h : ¬ rangeFinds (LeftPadBytes role 32) aP.Roles = true) :
    aP.AddRole role =
      (⟨aP.Base, aP.Roles ++ [LeftPadBytes role 32]⟩, true) := by
  simp [AccountPermissions.AddRole, h]

theorem hasRole_eq (aP : AccountPermissions) (role : GoString) :
    aP.HasRole role = (aP, rangeFinds (LeftPadBytes role 32) aP.Roles) := by
  unfold AccountPermissions.HasRole
  cases h : rangeFinds (LeftPadBytes role 32) aP.Roles <;> simp [h]

theorem rmRoleLoop_eq (roles : List GoString) (role : GoString) :
    ∀ (rest pre : List GoString), roles = pre ++ rest → role ∉ pre →
      rmRoleLoop roles role pre.length rest =
        if role ∈ rest then some (pre ++ rest.erase role) else none := by
  intro rest
  induction rest with
  | nil => intro pre _ _; simp [rmRoleLoop]
  | cons r rest ih =>
    intro pre hroles hpre
    by_cases h : r = role
    · subst h
      have htake : roles.take pre.length = pre := by rw [hroles]; simp
      have hpost : (if roles.length > pre.length + 1 then roles.drop (pre.length + 1)
          else []) = rest := by
        rw [hroles]
        cases rest with
        | nil => simp
        | cons x xs =>
          have hd : (pre ++ r :: x :: xs).drop (pre.length + 1) = x :: xs := by
            rw [show pre ++ r :: x :: xs = (pre ++ [r]) ++ (x :: xs) by simp]
            exact List.drop_left' (by simp)
          simp [hd]
      simp only [rmRoleLoop, if_true, htake, hpost]
      simp
    · have h' : ¬ role = r := fun e => h e.symm
      have hrec := ih (pre ++ [r]) (by simp [hroles]) (by simp [hpre, h'])
      simp only [List.length_append, List.length_singleton] at hrec
      simp only [rmRoleLoop, h, if_false, hrec]
      have he : (r :: rest).erase role = r :: rest.erase role := by
        rw [List.erase_cons_tail]
        simpa using h
      simp [h', he]

theorem rmRole_of_mem (aP : AccountPermissions) (role : GoString)
    (h : LeftPadBytes role 32 ∈ aP.Roles) :
    aP.RmRole role = (⟨aP.Base, aP.Roles.erase (LeftPadBytes role 32)⟩, true) := by
  have hl := rmRoleLoop_eq aP.Roles (LeftPadBytes role 32) aP.Roles [] rfl (by simp)
  simp only [List.length_nil, h, if_true, List.nil_append] at hl
  simp [AccountPermissions.RmRole, hl]

theorem rmRole_of_not_mem (aP : AccountPermissions) (role : GoString)
    (h : LeftPadBytes role 32 ∉ aP.Roles) :
    aP.RmRole role = (aP, false) := by
  have hl := rmRoleLoop_eq aP.Roles (LeftPadBytes role 32) aP.Roles [] rfl (by simp)
  simp only [List.length_nil, h, if_false] at hl
  simp [AccountPermissions.RmRole, hl]

theorem rmRole_roles (aP : AccountPermissions) (role : GoString) :
    (aP.RmRole role).1.Roles = aP.Roles.erase (LeftPadBytes role 32) := by
  by_cases h : LeftPadBytes role 32 ∈ aP.Roles
  · rw [rmRole_of_mem aP role h]
  · rw [rmRole_of_not_mem aP role h, List.erase_of_not_mem h]

theorem addRole_roles (aP : AccountPermissions) (role : GoString) :
    (aP.AddRole role).1.Roles =
      if LeftPadBytes role 32 ∈ aP.Roles then aP.Roles
      else aP.Roles ++ [LeftPadBytes role 32] := by
  by_cases h : LeftPadBytes role 32 ∈ aP.Roles
  · rw [addRole_of_finds aP role ((rangeFinds_iff _ _).2 h)]; simp [h]
  · rw [addRole_of_not_finds aP role (fun hf => h ((rangeFinds_iff _ _).1 hf))]; simp [h]

theorem addRole_nodup (aP : AccountPermissions) (role : GoString) (h : aP.Roles.Nodup) :
    (aP.AddRole role).1.Roles.Nodup := by
  rw [addRole_roles]
  split_ifs with hm
  · exact h
  · exact List.nodup_append.2 ⟨h, List.nodup_singleton _, by simpa using hm⟩

theorem rmRole_nodup (aP : AccountPermissions) (role : GoString) (h : aP.Roles.Nodup) :
    (aP.RmRole role).1.Roles.Nodup := by
  rw [rmRole_roles]
  exact h.erase _

theorem runRoleOps_nodup (ops : List RoleOp) :
    ∀ aP : AccountPermissions, aP.Roles.Nodup → (runRoleOps aP ops).Roles.Nodup := by
  induction ops with
  | nil => intro aP h; exact h
  | cons op ops ih =>
    intro aP h
    simp only [runRoleOps, List.foldl_cons]
    apply ih
    cases op with
    | add r => exact addRole_nodup aP r h
    | rm r => exact rmRole_nodup aP r h

theorem leftPadBytes_of_le (r : GoString) (h : r.length ≤ 32) :
    LeftPadBytes r 32 = List.replicate (32 - r.length) 0 ++ r ∧
    (LeftPadBytes r 32).length = 32 := by
  have hlt : ¬ 32 < r.length := Nat.not_lt.2 h
  simp only [LeftPadBytes, hlt, if_false, List.length_append, List.length_replicate, true_and]
  omega

theorem runRoleOps_width (ops : List RoleOp) :
    ∀ aP : AccountPermissions, (∀ x ∈ aP.Roles, x.length = 32) →
      (∀ op ∈ ops, op.role.length ≤ 32) →
      ∀ x ∈ (runRoleOps aP ops).Roles, x.length = 32 := by
  induction ops with
  | nil => intro aP h _; exact h
  | cons op ops ih =>
    intro aP h hops
    simp only [runRoleOps, List.foldl_cons]
    apply ih
    · cases op with
      | add r =>
        have hr : r.length ≤ 32 := hops (.add r) (by simp)
        intro x hx
        simp only [RoleOp.run, addRole_roles] at hx
        split_ifs at hx with hm
        · exact h x hx
        · rcases List.mem_append.1 hx with hx | hx
          · exact h x hx
          · rw [List.mem_singleton.1 hx]
            exact (leftPadBytes_of_le r hr).2
      | rm r =>
        intro x hx
        simp only [RoleOp.run, rmRole_roles] at hx
        exact h x (List.mem_of_mem_erase hx)
    · intro op' hop'
      exact hops op' (List.mem_cons_of_mem _ hop')

theorem resolve_of_unset (st : AppState) (account : Address) (flag : PermFlag)
    (hflag : flag ≠ 0) (hacc : (st.getPermissions account).Base.SetBit &&& flag = 0)
    (hglobal : ((st.getPermissions GlobalPermissionsAddress).Base.Get flag).2 ≠ (true, none)) :
    resolve st account flag = .ok false := by
  have h1 : ((st.getPermissions account).Base.Get flag).2 =
      (false, some (PermError.ErrValueNotSet flag)) := by
    simp [BasePermissions.Get, hflag, hacc]
  unfold resolve
  rw [h1]
  simp only
  revert hglobal
  unfold BasePermissions.Get
  by_cases hs : (st.getPermissions GlobalPermissionsAddress).Base.SetBit &&& flag = 0
  · simp [hflag, hs]
  · simp only [hflag, hs, if_false]
    cases decide ((st.getPermissions GlobalPermissionsAddress).Base.Perms &&& flag > 0) <;> simp

/-! ## Get, Set, Unset and IsSet -/

/-- C1: `Get(ty)` leaves the receiver as it was; its error is an
InvalidPermission exactly when `ty = 0`, a ValueNotSet exactly when `ty` is not
zero and `SetBit AND ty = 0`, and in every other case there is no error and the
boolean is `(Perms AND ty) != 0`. -/
theorem get_contract (p : BasePermissions) (ty : PermFlag) :
    (p.Get ty).1 = p ∧
    ((∃ t, (p.Get ty).2.2 = some (PermError.ErrInvalidPermission t)) ↔ ty = 0) ∧
    ((∃ t, (p.Get ty).2.2 = some (PermError.ErrValueNotSet t)) ↔
      (ty ≠ 0 ∧ p.SetBit &&& ty = 0)) ∧
    (ty ≠ 0 → p.SetBit &&& ty ≠ 0 →
      (p.Get ty).2 = (decide (p.Perms &&& ty ≠ 0), none)) := by
  unfold BasePermissions.Get
  by_cases h0 : ty = 0
  · simp [h0]
  · by_cases hs : p.SetBit &&& ty = 0
    · simp [h0, hs]
    · simp [h0, hs, Nat.pos_iff_ne_zero]

theorem get_contract_witness :
    ((⟨5, 6⟩ : BasePermissions).Get 4).1 = ⟨5, 6⟩ ∧
    ((∃ t, ((⟨5, 6⟩ : BasePermissions).Get 4).2.2 = some (PermError.ErrInvalidPermission t)) ↔
      (4 : PermFlag) = 0) ∧
    ((∃ t, ((⟨5, 6⟩ : BasePermissions).Get 4).2.2 = some (PermError.ErrValueNotSet t)) ↔
      ((4 : PermFlag) ≠ 0 ∧ (6 : PermFlag) &&& 4 = 0)) ∧
    ((⟨5, 6⟩ : BasePermissions).Get 4).2 = (true, none) :=
  ⟨(get_contract ⟨5, 6⟩ 4).1, (get_contract ⟨5, 6⟩ 4).2.1, (get_contract ⟨5, 6⟩ 4).2.2.1,
    (get_contract ⟨5, 6⟩ 4).2.2.2 (by decide) (by decide)⟩

/-- C2: for a non-zero flag `f` and a boolean `v`, `Set(f, v)` returns no error,
and in the resulting state `Get(f)` returns `(v, nil)` and `IsSet(f)` is true;
in particular this holds for `v = true`. -/
theorem set_then_get (p : BasePermissions) (f : PermFlag) (v : Bool) (hf : f ≠ 0) :
    (p.Set f v).2 = none ∧
    ((p.Set f v).1.Get f).2 = (v, none) ∧
    ((p.Set f v).1.IsSet f).2 = true ∧
    ((p.Set f true).1.Get f).2 = (true, none) := by
  have hne : ¬ ((p.SetBit ||| f) &&& f = 0) := by rw [or_and_self_flag]; exact hf
  have hpos : 0 < f := Nat.pos_of_ne_zero hf
  refine ⟨by simp [BasePermissions.Set, hf], ?_, ?_, ?_⟩
  · cases v
    · simp [BasePermissions.Set, BasePermissions.Get, hf, or_and_self_flag,
        and_compl64_and_self]
    · simp [BasePermissions.Set, BasePermissions.Get, hf, or_and_self_flag, hpos]
  · cases v <;>
      simp [BasePermissions.Set, BasePermissions.IsSet, hf, or_and_self_flag, hpos]
  · simp [BasePermissions.Set, BasePermissions.Get, hf, or_and_self_flag, hpos]

theorem set_then_get_witness :
    ((⟨8, 1⟩ : BasePermissions).Set 6 false).2 = none ∧
    (((⟨8, 1⟩ : BasePermissions).Set 6 false).1.Get 6).2 = (false, none) ∧
    (((⟨8, 1⟩ : BasePermissions).Set 6 false).1.IsSet 6).2 = true ∧
    (((⟨8, 1⟩ : BasePermissions).Set 6 true).1.Get 6).2 = (true, none) :=
  set_then_get ⟨8, 1⟩ 6 false (by decide)

/-- C3: whatever the state, `Get(0)`, `Set(0, v)` and `Unset(0)` fail with
InvalidPermission, and the failing `Set` and `Unset` leave `Perms` and `SetBit`
as they were. -/
theorem zero_flag_invalid (p : BasePermissions) (v : Bool) :
    (p.Get 0).2.2 = some (PermError.ErrInvalidPermission 0) ∧
    (p.Set 0 v).2 = some (PermError.ErrInvalidPermission 0) ∧
    (p.Unset 0).2 = some (PermError.ErrInvalidPermission 0) ∧
    (p.Set 0 v).1.Perms = p.Perms ∧ (p.Set 0 v).1.SetBit = p.SetBit ∧
    (p.Unset 0).1.Perms = p.Perms ∧ (p.Unset 0).1.SetBit = p.SetBit := by
  simp [BasePermissions.Get, BasePermissions.Set, BasePermissions.Unset]

/-- C4: for a non-zero flag `f` (and a 64-bit `SetBit`), `Unset(f)` returns no
error; afterwards `IsSet(f)` is false and `Get(f)` fails with ValueNotSet, the
`Perms` field is unchanged, and every bit of `SetBit` outside `f` is unchanged. -/
theorem unset_contract (p : BasePermissions) (f : PermFlag) (hf : f ≠ 0)
    (hp : p.SetBit < 2 ^ 64) :
    (p.Unset f).2 = none ∧
    ((p.Unset f).1.IsSet f).2 = false ∧
    ((p.Unset f).1.Get f).2 = (false, some (PermError.ErrValueNotSet f)) ∧
    (p.Unset f).1.Perms = p.Perms ∧
    (∀ i, f.testBit i = false →
      (p.Unset f).1.SetBit.testBit i = p.SetBit.testBit i) := by
  refine ⟨by simp [BasePermissions.Unset, hf], ?_, ?_, by simp [BasePermissions.Unset, hf], ?_⟩
  · simp [BasePermissions.Unset, BasePermissions.IsSet, hf, and_compl64_and_self]
  · simp [BasePermissions.Unset, BasePermissions.Get, hf, and_compl64_and_self]
  · intro i hi
    simp only [BasePermissions.Unset, hf, if_false, Nat.testBit_and, testBit_compl64, hi]
    by_cases h64 : i < 64
    · simp [h64]
    · simp [testBit_of_lt_two_pow_64 hp h64]

theorem unset_contract_witness :
    ((⟨5, 7⟩ : BasePermissions).Unset 4).2 = none ∧
    (((⟨5, 7⟩ : BasePermissions).Unset 4).1.IsSet 4).2 = false ∧
    (((⟨5, 7⟩ : BasePermissions).Unset 4).1.Get 4).2 =
      (false, some (PermError.ErrValueNotSet 4)) ∧
    ((⟨5, 7⟩ : BasePermissions).Unset 4).1.Perms = 5 ∧
    (∀ i, (4 : PermFlag).testBit i = false →
      ((⟨5, 7⟩ : BasePermissions).Unset 4).1.SetBit.testBit i = (7 : PermFlag).testBit i) :=
  unset_contract ⟨5, 7⟩ 4 (by decide) (by decide)

/-- C5: for a non-zero flag `f` (and a 64-bit `SetBit`), `Unset(f)` followed by
`Set(f, true)` returns no error from either call and yields a state in which
`Get(f)` returns `(true, nil)` and `IsSet(f)` is true, whatever value bit was
stored for `f`; the resulting state is the one `Set(f, true)` yields from `p`
directly. -/
theorem unset_then_set (p : BasePermissions) (f : PermFlag) (hf : f ≠ 0)
    (hp : p.SetBit < 2 ^ 64) :
    (p.Unset f).2 = none ∧ ((p.Unset f).1.Set f true).2 = none ∧
    (((p.Unset f).1.Set f true).1.Get f).2 = (true, none) ∧
    (((p.Unset f).1.Set f true).1.IsSet f).2 = true ∧
    ((p.Unset f).1.Set f true).1 = (p.Set f true).1 := by
  have hpos : 0 < f := Nat.pos_of_ne_zero hf
  refine ⟨by simp [BasePermissions.Unset, hf],
    by simp [BasePermissions.Set, hf], ?_, ?_, ?_⟩
  · simp [BasePermissions.Unset, BasePermissions.Set, BasePermissions.Get, hf,
      or_and_self_flag, hpos]
  · simp [BasePermissions.Unset, BasePermissions.Set, BasePermissions.IsSet, hf,
      or_and_self_flag, hpos]
  · simp [BasePermissions.Unset, BasePermissions.Set, hf, and_compl64_or_self _ _ hp]

theorem unset_then_set_witness :
    ((⟨1, 5⟩ : BasePermissions).Unset 4).2 = none ∧
    (((⟨1, 5⟩ : BasePermissions).Unset 4).1.Set 4 true).2 = none ∧
    ((((⟨1, 5⟩ : BasePermissions).Unset 4).1.Set 4 true).1.Get 4).2 = (true, none) ∧
    ((((⟨1, 5⟩ : BasePermissions).Unset 4).1.Set 4 true).1.IsSet 4).2 = true ∧
    (((⟨1, 5⟩ : BasePermissions).Unset 4).1.Set 4 true).1 =
      ((⟨1, 5⟩ : BasePermissions).Set 4 true).1 :=
  unset_then_set ⟨1, 5⟩ 4 (by decide) (by decide)

/-- C6, as stated, fails on a flag with several bits: with `SetBit = 1`, the
states with `Perms = 2` and `Perms = 0` differ only in a value bit whose
set-bit is off, and `Get(3)` returns true on the first and false on the
second. -/
theorem get_combined_flag_reads_unset_bit :
    ¬ (∀ (ty : PermFlag) (p q : BasePermissions), p.SetBit = q.SetBit →
      p.Perms &&& p.SetBit = q.Perms &&& q.SetBit → (p.Get ty).2 = (q.Get ty).2) := by
  intro h
  have h3 := h 3 ⟨2, 1⟩ ⟨0, 1⟩ rfl (by decide)
  revert h3
  decide

/-- C6, amended: for two states with the same `SetBit` and with
`Perms AND SetBit` equal in both, `Get(ty)` returns the same boolean and the
same error on both for every flag `ty` that is a single bit, or all of whose
bits are marked set, or none of whose bits is marked set (zero included). -/
theorem get_ignores_unset_value_bits (ty : PermFlag) (p q : BasePermissions)
    (hs : p.SetBit = q.SetBit)
    (hv : p.Perms &&& p.SetBit = q.Perms &&& q.SetBit)
    (hty : (∃ k, ty = 2 ^ k) ∨ ty &&& p.SetBit = ty ∨ ty &&& p.SetBit = 0) :
    (p.Get ty).2 = (q.Get ty).2 := by
  have hcases : ty &&& p.SetBit = ty ∨ ty &&& p.SetBit = 0 := by
    rcases hty with ⟨k, rfl⟩ | h
    · exact two_pow_and_cases k p.SetBit
    · exact h
  rcases hcases with hall | hnone
  · have hP : p.Perms &&& ty = q.Perms &&& ty := by
      have e1 : p.Perms &&& ty = (p.Perms &&& p.SetBit) &&& ty := by
        rw [Nat.land_assoc, Nat.land_comm p.SetBit ty, hall]
      have e2 : q.Perms &&& ty = (q.Perms &&& q.SetBit) &&& ty := by
        rw [Nat.land_assoc, Nat.land_comm q.SetBit ty, ← hs, hall]
      rw [e1, e2, hv]
    simp only [BasePermissions.Get, ← hs, hP]
    split_ifs <;> rfl
  · have hS : p.SetBit &&& ty = 0 := by rw [Nat.land_comm]; exact hnone
    simp only [BasePermissions.Get, ← hs, hS]
    split_ifs <;> rfl

theorem get_ignores_unset_value_bits_witness :
    ((⟨6, 5⟩ : BasePermissions).Get 4).2 = ((⟨4, 5⟩ : BasePermissions).Get 4).2 :=
  get_ignores_unset_value_bits 4 ⟨6, 5⟩ ⟨4, 5⟩ rfl (by decide) (Or.inl ⟨2, by decide⟩)

/-- C17: `Get(ty)` returns a value without error exactly when `IsSet(ty)` is
true, for every flag; `IsSet(0)` is false, and `Get` reports ValueNotSet
exactly for the non-zero flags on which `IsSet` is false. -/
theorem get_isSet_agree (p : BasePermissions) (ty : PermFlag) :
    ((p.Get ty).2.2 = none ↔ (p.IsSet ty).2 = true) ∧
    (p.IsSet 0).2 = false ∧
    ((∃ t, (p.Get ty).2.2 = some (PermError.ErrValueNotSet t)) ↔
      (ty ≠ 0 ∧ (p.IsSet ty).2 = false)) := by
  unfold BasePermissions.Get BasePermissions.IsSet
  by_cases h0 : ty = 0
  · simp [h0]
  · by_cases hs : p.SetBit &&& ty = 0
    · simp [h0, hs]
    · simp [h0, hs, Nat.pos_iff_ne_zero]

/-- C18: for a non-zero flag `f`, a boolean `v` and a flag `g` sharing no bit
with `f` (and a 64-bit `Perms`), the `Perms` bits and the `SetBit` bits of `g`
are the same before and after `Set(f, v)`, and so are the results of `Get(g)`
and `IsSet(g)`. -/
theorem set_frame (p : BasePermissions) (f g : PermFlag) (v : Bool) (hf : f ≠ 0)
    (hfg : f &&& g = 0) (hp : p.Perms < 2 ^ 64) :
    (p.Set f v).1.Perms &&& g = p.Perms &&& g ∧
    (p.Set f v).1.SetBit &&& g = p.SetBit &&& g ∧
    ((p.Set f v).1.Get g).2 = (p.Get g).2 ∧
    ((p.Set f v).1.IsSet g).2 = (p.IsSet g).2 := by
  have hP : (p.Set f v).1.Perms &&& g = p.Perms &&& g := by
    cases v
    · simp [BasePermissions.Set, hf, and_compl64_and_disjoint _ _ _ hfg hp]
    · simp [BasePermissions.Set, hf, or_and_disjoint _ _ _ hfg]
  have hS : (p.Set f v).1.SetBit &&& g = p.SetBit &&& g := by
    cases v <;> simp [BasePermissions.Set, hf, or_and_disjoint _ _ _ hfg]
  refine ⟨hP, hS, ?_, ?_⟩
  · simp only [BasePermissions.Get, hP, hS]
    split_ifs <;> rfl
  · simp only [BasePermissions.IsSet, hS]
    split_ifs <;> rfl

theorem set_frame_witness :
    ((⟨6, 6⟩ : BasePermissions).Set 2 false).1.Perms &&& 4 = (6 : PermFlag) &&& 4 ∧
    ((⟨6, 6⟩ : BasePermissions).Set 2 false).1.SetBit &&& 4 = (6 : PermFlag) &&& 4 ∧
    (((⟨6, 6⟩ : BasePermissions).Set 2 false).1.Get 4).2 =
      ((⟨6, 6⟩ : BasePermissions).Get 4).2 ∧
    (((⟨6, 6⟩ : BasePermissions).Set 2 false).1.IsSet 4).2 =
      ((⟨6, 6⟩ : BasePermissions).IsSet 4).2 :=
  set_frame ⟨6, 6⟩ 2 4 false (by decide) (by decide) (by decide)

/-! ## The name table -/

/-- C7: for each of the seven base flags `PermFlagToString` succeeds and
`PermStringToFlag` of its result returns the flag without error; for each of
the seven names `PermStringToFlag` succeeds and `PermFlagToString` of its
result returns the name without error. -/
theorem name_table_round_trip :
    (∀ f ∈ baseFlags, (PermFlagToString f).2 = none ∧
      PermStringToFlag (PermFlagToString f).1 = (f, none)) ∧
    (∀ s ∈ baseNames, (PermStringToFlag s).2 = none ∧
      PermFlagToString (PermStringToFlag s).1 = (s, none)) := by
  decide

/-- C8: `PermFlagToString(pf)` returns an error exactly when `pf` is not one
of the seven base flags, so it fails for 0, for `Send|Call`, for every value
with two different bits set and for every bit at or above 128;
`PermStringToFlag(s)` returns an error exactly when `s` is not one of the
seven names. -/
theorem name_table_errors (pf : PermFlag) (s : GoString) :
    ((PermFlagToString pf).2 ≠ none ↔ pf ∉ baseFlags) ∧
    ((PermStringToFlag s).2 ≠ none ↔ s ∉ baseNames) ∧
    (PermFlagToString 0).2 ≠ none ∧
    (PermFlagToString (Send ||| Call)).2 ≠ none ∧
    (∀ k, (PermFlagToString (2 ^ (7 + k))).2 ≠ none) ∧
    (∀ i j, i ≠ j → pf.testBit i = true → pf.testBit j = true →
      (PermFlagToString pf).2 ≠ none) := by
  have hflag : ∀ x : PermFlag, (PermFlagToString x).2 ≠ none ↔ x ∉ baseFlags := by
    intro x
    unfold PermFlagToString baseFlags
    split_ifs <;> simp [*]
  refine ⟨hflag pf, ?_, by decide, by decide, ?_, ?_⟩
  · unfold PermStringToFlag baseNames
    split_ifs <;> simp [*]
  · intro k
    rw [hflag]
    intro hmem
    obtain ⟨m, hm, he⟩ := baseFlags_two_pow hmem
    have := Nat.pow_right_injective (le_refl 2) he
    omega
  · intro i j hij hi hj
    rw [hflag]
    intro hmem
    obtain ⟨m, _, he⟩ := baseFlags_two_pow hmem
    rw [he, Nat.testBit_two_pow] at hi hj
    simp only [decide_eq_true_eq] at hi hj
    exact hij (hi.symm.trans hj)

theorem name_table_errors_witness :
    (PermFlagToString 6).2 ≠ none ∧ (PermStringToFlag (str "Root")).2 ≠ none :=
  ⟨(name_table_errors 6 (str "Root")).2.2.2.2.2 1 2 (by decide) (by decide) (by decide),
    (name_table_errors 6 (str "Root")).2.1.mpr (by decide)⟩

/-! ## Roles -/

/-- C9: after `AddRole(r)`, a second `AddRole(r')` with a role `r'` that
normalizes to the same padded value as `r` returns false and leaves the state,
so the role sequence and its length, unchanged. -/
theorem addRole_idempotent (aP : AccountPermissions) (r r' : GoString)
    (h : LeftPadBytes r 32 = LeftPadBytes r' 32) :
    ((aP.AddRole r).1.AddRole r').2 = false ∧
    ((aP.AddRole r).1.AddRole r').1.Roles = (aP.AddRole r).1.Roles ∧
    ((aP.AddRole r).1.AddRole r').1.Roles.length = (aP.AddRole r).1.Roles.length ∧
    ((aP.AddRole r).1.AddRole r').1 = (aP.AddRole r).1 := by
  have hmem : rangeFinds (LeftPadBytes r' 32) (aP.AddRole r).1.Roles = true := by
    rw [rangeFinds_iff, ← h]
    by_cases hin : rangeFinds (LeftPadBytes r 32) aP.Roles = true
    · rw [addRole_of_finds aP r hin]
      exact (rangeFinds_iff _ _).1 hin
    · rw [addRole_of_not_finds aP r hin]
      simp
  rw [addRole_of_finds _ r' hmem]
  exact ⟨rfl, rfl, rfl, rfl⟩

theorem addRole_idempotent_witness :
    ((ZeroAccountPermissions.AddRole (str "admin")).1.AddRole
        (0 :: 0 :: str "admin")).2 = false ∧
    ((ZeroAccountPermissions.AddRole (str "admin")).1.AddRole
        (0 :: 0 :: str "admin")).1.Roles = (ZeroAccountPermissions.AddRole (str "admin")).1.Roles :=
  ⟨(addRole_idempotent ZeroAccountPermissions (str "admin") (0 :: 0 :: str "admin")
      (by decide)).1,
    (addRole_idempotent ZeroAccountPermissions (str "admin") (0 :: 0 :: str "admin")
      (by decide)).2.1⟩

/-- C10: `AddRole(r)` returns true exactly when `HasRole(r)` was false before
the call; when it returns true the new role sequence is the old one with the
normalized `r` appended, when it returns false the sequence is unchanged; in
both cases the roles that were there keep their positions, `HasRole(r)` is true
afterwards and `Base` is untouched. -/
theorem addRole_contract (aP : AccountPermissions) (r : GoString) :
    ((aP.AddRole r).2 = true ↔ (aP.HasRole r).2 = false) ∧
    ((aP.AddRole r).2 = true →
      (aP.AddRole r).1.Roles = aP.Roles ++ [LeftPadBytes r 32]) ∧
    ((aP.AddRole r).2 = false → (aP.AddRole r).1.Roles = aP.Roles) ∧
    (∀ i, i < aP.Roles.length → (aP.AddRole r).1.Roles[i]? = aP.Roles[i]?) ∧
    ((aP.AddRole r).1.HasRole r).2 = true ∧
    (aP.AddRole r).1.Base = aP.Base := by
  by_cases hin : rangeFinds (LeftPadBytes r 32) aP.Roles = true
  · rw [addRole_of_finds aP r hin, hasRole_eq]
    simp [hin]
  · have hnew : rangeFinds (LeftPadBytes r 32) (aP.Roles ++ [LeftPadBytes r 32]) = true := by
      rw [rangeFinds_iff]; simp
    rw [addRole_of_not_finds aP r hin]
    simp only [hasRole_eq]
    refine ⟨by simpa using hin, by simp, by simp, ?_, hnew, ?_⟩
    · intro i hi
      exact List.getElem?_append_left hi
    · first | rfl | simp

theorem addRole_contract_witness :
    ((⟨ZeroBasePermissions, [str "x"]⟩ : AccountPermissions).AddRole (str "y")).2 = true ∧
    ((⟨ZeroBasePermissions, [str "x"]⟩ : AccountPermissions).AddRole (str "y")).1.Roles =
      [str "x"] ++ [LeftPadBytes (str "y") 32] ∧
    ((⟨ZeroBasePermissions, [str "x"]⟩ : AccountPermissions).AddRole (str "y")).1.Roles[0]? =
      [str "x"][0]? :=
  ⟨(addRole_contract ⟨ZeroBasePermissions, [str "x"]⟩ (str "y")).1.mpr (by decide),
    (addRole_contract ⟨ZeroBasePermissions, [str "x"]⟩ (str "y")).2.1 (by decide),
    (addRole_contract ⟨ZeroBasePermissions, [str "x"]⟩ (str "y")).2.2.2.1 0 (by decide)⟩

/-- C11: if no stored role equals the normalized `r`, `RmRole(r)` returns
false and leaves the role sequence unchanged; otherwise it returns true and the
new sequence is the old one without the first entry equal to the normalized
`r`, the other roles in their order, so one entry shorter. -/
theorem rmRole_contract (aP : AccountPermissions) (r : GoString) :
    (LeftPadBytes r 32 ∉ aP.Roles →
      (aP.RmRole r).2 = false ∧ (aP.RmRole r).1.Roles = aP.Roles) ∧
    (LeftPadBytes r 32 ∈ aP.Roles →
      (aP.RmRole r).2 = true ∧
      (∃ pre post, aP.Roles = pre ++ LeftPadBytes r 32 :: post ∧
        LeftPadBytes r 32 ∉ pre ∧ (aP.RmRole r).1.Roles = pre ++ post) ∧
      (aP.RmRole r).1.Roles.length = aP.Roles.length - 1) := by
  constructor
  · intro h
    rw [rmRole_of_not_mem aP r h]
    exact ⟨rfl, rfl⟩
  · intro h
    rw [rmRole_of_mem aP r h]
    refine ⟨rfl, ?_, ?_⟩
    · obtain ⟨pre, post, hpre, hsplit, herase⟩ := List.exists_erase_eq h
      exact ⟨pre, post, hsplit, hpre, herase⟩
    · exact List.length_erase_of_mem h

theorem rmRole_contract_witness :
    ((⟨ZeroBasePermissions, [str "a"]⟩ : AccountPermissions).RmRole (str "b")).2 = false ∧
    ((⟨ZeroBasePermissions, [str "a"]⟩ : AccountPermissions).RmRole (str "b")).1.Roles =
      [str "a"] ∧
    ((ZeroAccountPermissions.AddRole (str "a")).1.RmRole (str "a")).2 = true ∧
    ((ZeroAccountPermissions.AddRole (str "a")).1.RmRole (str "a")).1.Roles.length =
      (ZeroAccountPermissions.AddRole (str "a")).1.Roles.length - 1 :=
  ⟨((rmRole_contract ⟨ZeroBasePermissions, [str "a"]⟩ (str "b")).1 (by decide)).1,
    ((rmRole_contract ⟨ZeroBasePermissions, [str "a"]⟩ (str "b")).1 (by decide)).2,
    ((rmRole_contract (ZeroAccountPermissions.AddRole (str "a")).1 (str "a")).2
      (by decide)).1,
    ((rmRole_contract (ZeroAccountPermissions.AddRole (str "a")).1 (str "a")).2
      (by decide)).2.2⟩

/-- C12: if the role sequence has no two equal entries, it has none after
`AddRole(r)` and none after `RmRole(r)`; hence the role sequence reached from
the empty one by any series of `AddRole` and `RmRole` calls has no two equal
entries. -/
theorem roles_duplicate_free (aP : AccountPermissions) (r : GoString)
    (base : BasePermissions) (ops : List RoleOp) :
    (aP.Roles.Nodup → (aP.AddRole r).1.Roles.Nodup ∧ (aP.RmRole r).1.Roles.Nodup) ∧
    (runRoleOps ⟨base, []⟩ ops).Roles.Nodup :=
  ⟨fun h => ⟨addRole_nodup aP r h, rmRole_nodup aP r h⟩,
    runRoleOps_nodup ops ⟨base, []⟩ List.nodup_nil⟩

theorem roles_duplicate_free_witness :
    ((⟨ZeroBasePermissions, [LeftPadBytes (str "a") 32]⟩ : AccountPermissions).AddRole
      (str "a")).1.Roles.Nodup ∧
    ((⟨ZeroBasePermissions, [LeftPadBytes (str "a") 32]⟩ : AccountPermissions).RmRole
      (str "b")).1.Roles.Nodup ∧
    (runRoleOps ⟨ZeroBasePermissions, []⟩
      [.add (str "a"), .add (str "a"), .rm (str "b")]).Roles.Nodup :=
  ⟨((roles_duplicate_free ⟨ZeroBasePermissions, [LeftPadBytes (str "a") 32]⟩ (str "a")
      ZeroBasePermissions []).1 (by decide)).1,
    ((roles_duplicate_free ⟨ZeroBasePermissions, [LeftPadBytes (str "a") 32]⟩ (str "b")
      ZeroBasePermissions []).1 (by decide)).2,
    (roles_duplicate_free ZeroAccountPermissions (str "a") ZeroBasePermissions
      [.add (str "a"), .add (str "a"), .rm (str "b")]).2⟩

/-- C13: for a role `r` of at most 32 bytes, the entry a successful
`AddRole(r)` appends is `32 - len(r)` zero bytes followed by the bytes of `r`,
32 bytes in all; hence every entry of a role sequence reached from the empty
one by `AddRole` and `RmRole` calls with roles of at most 32 bytes is 32 bytes
long. -/
theorem roles_fixed_width (aP : AccountPermissions) (r : GoString)
    (base : BasePermissions) (ops : List RoleOp) :
    (r.length ≤ 32 → (aP.AddRole r).2 = true →
      (aP.AddRole r).1.Roles = aP.Roles ++ [List.replicate (32 - r.length) 0 ++ r] ∧
      (List.replicate (32 - r.length) (0 : UInt8) ++ r).length = 32) ∧
    ((∀ op ∈ ops, op.role.length ≤ 32) →
      ∀ x ∈ (runRoleOps ⟨base, []⟩ ops).Roles, x.length = 32) := by
  constructor
  · intro hr hadd
    have hpad := leftPadBytes_of_le r hr
    have hnot : ¬ rangeFinds (LeftPadBytes r 32) aP.Roles = true := by
      intro hf
      rw [addRole_of_finds aP r hf] at hadd
      exact Bool.false_ne_true hadd
    rw [addRole_of_not_finds aP r hnot, ← hpad.1]
    exact ⟨rfl, hpad.2⟩
  · intro hops
    exact runRoleOps_width ops ⟨base, []⟩ (by simp) hops

theorem roles_fixed_width_witness :
    (ZeroAccountPermissions.AddRole (str "ab")).1.Roles =
      [] ++ [List.replicate (32 - (str "ab").length) 0 ++ str "ab"] ∧
    (∀ x ∈ (runRoleOps ⟨ZeroBasePermissions, []⟩
      [.add (str "ab"), .add (str "c"), .rm (str "ab")]).Roles, x.length = 32) :=
  ⟨((roles_fixed_width ZeroAccountPermissions (str "ab") ZeroBasePermissions []).1
      (by decide) (by decide)).1,
    (roles_fixed_width ZeroAccountPermissions (str "ab") ZeroBasePermissions
      [.add (str "ab"), .add (str "c"), .rm (str "ab")]).2 (by decide)⟩

/-- C19: when `HasRole(r)` is false, `AddRole(r)` followed by `RmRole(r)`
returns true from both calls and leaves the role sequence, and the whole state,
as it was. -/
theorem rmRole_undoes_addRole (aP : AccountPermissions) (r : GoString)
    (h : (aP.HasRole r).2 = false) :
    (aP.AddRole r).2 = true ∧ ((aP.AddRole r).1.RmRole r).2 = true ∧
    ((aP.AddRole r).1.RmRole r).1.Roles = aP.Roles ∧
    ((aP.AddRole r).1.RmRole r).1 = aP := by
  rw [hasRole_eq] at h
  have hnot : ¬ rangeFinds (LeftPadBytes r 32) aP.Roles = true := by
    intro hf
    rw [hf] at h
    exact Bool.noConfusion h
  have hmem : LeftPadBytes r 32 ∉ aP.Roles := fun hm => hnot ((rangeFinds_iff _ _).2 hm)
  rw [addRole_of_not_finds aP r hnot]
  have hin : LeftPadBytes r 32 ∈
      (⟨aP.Base, aP.Roles ++ [LeftPadBytes r 32]⟩ : AccountPermissions).Roles := by simp
  rw [rmRole_of_mem _ r hin]
  have herase : (aP.Roles ++ [LeftPadBytes r 32]).erase (LeftPadBytes r 32) = aP.Roles := by
    rw [List.erase_append_right _ hmem]
    simp
  rw [herase]
  exact ⟨rfl, rfl, rfl, rfl⟩

theorem rmRole_undoes_addRole_witness :
    ((⟨ZeroBasePermissions, [str "x"]⟩ : AccountPermissions).AddRole (str "y")).2 = true ∧
    (((⟨ZeroBasePermissions, [str "x"]⟩ : AccountPermissions).AddRole (str "y")).1.RmRole
      (str "y")).2 = true ∧
    (((⟨ZeroBasePermissions, [str "x"]⟩ : AccountPermissions).AddRole (str "y")).1.RmRole
      (str "y")).1.Roles = [str "x"] ∧
    (((⟨ZeroBasePermissions, [str "x"]⟩ : AccountPermissions).AddRole (str "y")).1.RmRole
      (str "y")).1 = ⟨ZeroBasePermissions, [str "x"]⟩ :=
  rmRole_undoes_addRole ⟨ZeroBasePermissions, [str "x"]⟩ (str "y") (by decide)

/-- C20: when the role sequence has no two equal entries, as it has in every
state reached from the empty role sequence through `AddRole` and `RmRole`,
`HasRole(r)` is false after `RmRole(r)`; and `HasRole(s)` is the same before
and after `RmRole(r)` for every role `s` whose normalized form differs from
that of `r`. -/
theorem rmRole_removes (aP : AccountPermissions) (r s : GoString)
    (base : BasePermissions) (ops : List RoleOp) :
    (aP.Roles.Nodup → ((aP.RmRole r).1.HasRole r).2 = false) ∧
    (((runRoleOps ⟨base, []⟩ ops).RmRole r).1.HasRole r).2 = false ∧
    (LeftPadBytes s 32 ≠ LeftPadBytes r 32 →
      ((aP.RmRole r).1.HasRole s).2 = (aP.HasRole s).2) := by
  have hgone : ∀ a : AccountPermissions, a.Roles.Nodup →
      ((a.RmRole r).1.HasRole r).2 = false := by
    intro a hnd
    rw [hasRole_eq, rmRole_roles]
    have : ¬ rangeFinds (LeftPadBytes r 32) (a.Roles.erase (LeftPadBytes r 32)) = true := by
      rw [rangeFinds_iff, hnd.mem_erase_iff]
      simp
    simpa using this
  refine ⟨hgone aP, hgone _ (runRoleOps_nodup ops ⟨base, []⟩ List.nodup_nil), ?_⟩
  intro hne
  rw [hasRole_eq, hasRole_eq, rmRole_roles]
  simp only
  rw [Bool.eq_iff_iff, rangeFinds_iff, rangeFinds_iff]
  exact List.mem_erase_of_ne hne

theorem rmRole_removes_witness :
    (((⟨ZeroBasePermissions, [LeftPadBytes (str "x") 32, LeftPadBytes (str "y") 32]⟩ :
      AccountPermissions).RmRole (str "x")).1.HasRole (str "x")).2 = false ∧
    (((⟨ZeroBasePermissions, [LeftPadBytes (str "x") 32, LeftPadBytes (str "y") 32]⟩ :
      AccountPermissions).RmRole (str "x")).1.HasRole (str "y")).2 =
      ((⟨ZeroBasePermissions, [LeftPadBytes (str "x") 32, LeftPadBytes (str "y") 32]⟩ :
        AccountPermissions).HasRole (str "y")).2 :=
  ⟨(rmRole_removes ⟨ZeroBasePermissions, [LeftPadBytes (str "x") 32,
      LeftPadBytes (str "y") 32]⟩ (str "x") (str "y") ZeroBasePermissions []).1 (by decide),
    (rmRole_removes ⟨ZeroBasePermissions, [LeftPadBytes (str "x") 32,
      LeftPadBytes (str "y") 32]⟩ (str "x") (str "y") ZeroBasePermissions []).2.2
      (by decide)⟩

/-! ## Constants -/

/-- C14: in `DefaultAccountPermissions`, whatever `AllSNativePermFlags` is,
`IsSet(f)` is true and `Get(f)` returns no error for each of the seven base
flags, with value false for Root and true for Send, Call, CreateContract,
CreateAccount, Bond and Name. -/
theorem default_permissions_all_set (AllSNativePermFlags : PermFlag) :
    (∀ f ∈ baseFlags,
      ((DefaultAccountPermissions AllSNativePermFlags).Base.IsSet f).2 = true ∧
      ((DefaultAccountPermissions AllSNativePermFlags).Base.Get f).2.2 = none) ∧
    ((DefaultAccountPermissions AllSNativePermFlags).Base.Get Root).2 = (false, none) ∧
    ((DefaultAccountPermissions AllSNativePermFlags).Base.Get Send).2 = (true, none) ∧
    ((DefaultAccountPermissions AllSNativePermFlags).Base.Get Call).2 = (true, none) ∧
    ((DefaultAccountPermissions AllSNativePermFlags).Base.Get CreateContract).2 =
      (true, none) ∧
    ((DefaultAccountPermissions AllSNativePermFlags).Base.Get CreateAccount).2 =
      (true, none) ∧
    ((DefaultAccountPermissions AllSNativePermFlags).Base.Get Bond).2 = (true, none) ∧
    ((DefaultAccountPermissions AllSNativePermFlags).Base.Get Name).2 = (true, none) := by
  have hset : ∀ f ∈ baseFlags,
      (DefaultAccountPermissions AllSNativePermFlags).Base.SetBit &&& f ≠ 0 := by
    intro f hf
    have hbase : ∀ g ∈ baseFlags, AllBasePermFlags &&& g ≠ 0 := by decide
    exact or_and_ne_zero AllBasePermFlags AllSNativePermFlags f (hbase f hf)
  have hget := fun f hf =>
    get_of_set_bit (DefaultAccountPermissions AllSNativePermFlags).Base f (hset f hf)
  refine ⟨fun f hf => ⟨(hget f hf).2, by rw [(hget f hf).1]⟩, ?_, ?_, ?_, ?_, ?_, ?_, ?_⟩
  · rw [(hget Root (by decide)).1]
    show (decide (DefaultBasePermFlags &&& Root > 0), none) = _
    decide
  · rw [(hget Send (by decide)).1]
    show (decide (DefaultBasePermFlags &&& Send > 0), none) = _
    decide
  · rw [(hget Call (by decide)).1]
    show (decide (DefaultBasePermFlags &&& Call > 0), none) = _
    decide
  · rw [(hget CreateContract (by decide)).1]
    show (decide (DefaultBasePermFlags &&& CreateContract > 0), none) = _
    decide
  · rw [(hget CreateAccount (by decide)).1]
    show (decide (DefaultBasePermFlags &&& CreateAccount > 0), none) = _
    decide
  · rw [(hget Bond (by decide)).1]
    show (decide (DefaultBasePermFlags &&& Bond > 0), none) = _
    decide
  · rw [(hget Name (by decide)).1]
    show (decide (DefaultBasePermFlags &&& Name > 0), none) = _
    decide

/-- C15: the seven base flags are 1, 2, 4, 8, 16, 32, 64, the distinct powers
of two from `2^0` to `2^6` in the order of their declaration, and
`AllBasePermFlags`, which is `TopBasePermFlag | (TopBasePermFlag - 1)` with
`TopBasePermFlag = 1 << (NumBasePermissions - 1)`, is the OR of the seven
flags, 127. -/
theorem base_flag_values :
    Root = 1 ∧ Send = 2 ∧ Call = 4 ∧ CreateContract = 8 ∧ CreateAccount = 16 ∧
    Bond = 32 ∧ Name = 64 ∧
    baseFlags = (List.range 7).map (fun k => 2 ^ k) ∧ baseFlags.Nodup ∧
    TopBasePermFlag = 1 <<< (NumBasePermissions - 1) ∧ TopBasePermFlag = Name ∧
    AllBasePermFlags = TopBasePermFlag ||| (TopBasePermFlag - 1) ∧
    AllBasePermFlags =
      (Root ||| Send ||| Call ||| CreateContract ||| CreateAccount ||| Bond ||| Name) ∧
    AllBasePermFlags = 127 := by
  decide

/-! ## Dispatch -/

/-- C16: when the caller has no permission set and the global permissions do
not grant the add-role permission, the dispatch of a call to the `addRole`
function of a contract, whatever follows the selector in the call data, fails
with LacksPermission naming the caller and the add-role flag; the permissions
of the grantee, and of every account, are as before, and so is the gas. -/
theorem dispatch_addRole_lacks_permission (ext : External)
    (contract : SNativeContractDescription) (st : AppState) (caller grantee : Address)
    (callData : List UInt8) (gas : Nat) (AddRoleFlag : PermFlag) (gasCost : Nat)
    (hfn : contract.FunctionByID ext (callData.take 4) =
      some (addRoleFunction AddRoleFlag gasCost))
    (hflag : AddRoleFlag ≠ 0)
    (hcaller : (st.getPermissions caller).Base.SetBit = 0)
    (hglobal : ((st.getPermissions GlobalPermissionsAddress).Base.Get AddRoleFlag).2 ≠
      (true, none)) :
    (contract.Dispatch ext st caller callData gas).ret =
      .error (.LacksPermission caller AddRoleFlag) ∧
    (contract.Dispatch ext st caller callData gas).state.getPermissions grantee =
      st.getPermissions grantee ∧
    (∀ a, (contract.Dispatch ext st caller callData gas).state.getPermissions a =
      st.getPermissions a) ∧
    (contract.Dispatch ext st caller callData gas).gas = gas := by
  have hres : resolve st caller (addRoleFunction AddRoleFlag gasCost).PermFlag =
      .ok false :=
    resolve_of_unset st caller AddRoleFlag hflag (by rw [hcaller]; simp) hglobal
  have hd : contract.Dispatch ext st caller callData gas =
      ⟨st, gas, .error (.LacksPermission caller AddRoleFlag)⟩ := by
    unfold SNativeContractDescription.Dispatch
    rw [hfn]
    simp only
    rw [hres]
    rfl
  rw [hd]
  exact ⟨rfl, rfl, fun _ => rfl, rfl⟩

theorem dispatch_addRole_lacks_permission_witness :
    testExternal.decode [.address, .string] (testCallData1.drop 4) = none ∧
    (testContract.Dispatch testExternal testState (testAddress 1) testCallData1 1000).ret =
      .error (.LacksPermission (testAddress 1) testAddRoleFlag) ∧
    (testContract.Dispatch testExternal testState (testAddress 1) testCallData1
      1000).state.getPermissions (testAddress 2) = testState.getPermissions (testAddress 2) :=
  ⟨by decide,
    (dispatch_addRole_lacks_permission testExternal testContract testState
      (testAddress 1) (testAddress 2) testCallData1 1000 testAddRoleFlag 1
      rfl (by decide) rfl (by decide)).1,
    (dispatch_addRole_lacks_permission testExternal testContract testState
      (testAddress 1) (testAddress 2) testCallData1 1000 testAddRoleFlag 1
      rfl (by decide) rfl (by decide)).2.1⟩

/-- The second dispatch of the test: once the caller is granted the add-role
permission, the call with whole words succeeds, returns the 32-byte word 1, and
the grantee has the role the call data decodes to. -/
theorem dispatch_test_second_call :
    (testState.setPermission (testAddress 1) testAddRoleFlag true).2 = none ∧
    (testContract.Dispatch testExternal
      (testState.setPermission (testAddress 1) testAddRoleFlag true).1
      (testAddress 1) testCallData2 1000).ret = .ok (LeftPadBytes [1] 32) ∧
    ((testContract.Dispatch testExternal
      (testState.setPermission (testAddress 1) testAddRoleFlag true).1
      (testAddress 1) testCallData2 1000).state.getPermissions (testAddress 2)).Roles =
      [LeftPadBytes [] 32] :=
  ⟨rfl, rfl, rfl⟩

end Permission
